import Mathlib

/-!
Verification development for the GCUL document-integrity ledger
(`backend/app/services/gcul_blockchain_service.py` and
`backend/app/services/verification_cache.py`).

The Python services are shallowly embedded as pure Lean functions.
External cryptographic primitives (SHA-256, the Fernet symmetric cipher,
Cloud KMS encrypt/decrypt/sign, base64, UTF-8 encoding) are modelled
abstractly by a `Crypto` record of functions: every claim under study
depends only on equalities between digests or on round-trip facts about
those primitives, never on their bit-level definitions.  Byte strings are
`List Nat`; timestamps (Python `time.time()` values, used only through
subtraction and ordering against whole-second thresholds) are modelled
as integers; Python dicts keyed by strings are association
lists whose update removes the previous binding, so keys stay unique.
-/

/-- Abstract model of the external cryptographic primitives used by the
service.  `sha256hex` is `hashlib.sha256(...).hexdigest()`, `sha256dig`
is `hashlib.sha256(...).digest()`, `utf8` is `str.encode("utf-8")`,
`b64e`/`b64d` are base64 encode/decode, `kmsEnc`/`kmsDec` are Cloud KMS
encrypt/decrypt on the fixed encryption key, `kmsSign` is
`asymmetric_sign`, and `fernetEnc`/`fernetDec` are `Fernet(dek).encrypt`
and `Fernet(dek).decrypt`. -/
structure Crypto where
  sha256hex : List Nat → String
  sha256dig : List Nat → List Nat
  utf8 : String → List Nat
  b64e : List Nat → String
  b64d : String → List Nat
  kmsEnc : List Nat → List Nat
  kmsDec : List Nat → List Nat
  kmsSign : String → List Nat → List Nat
  fernetEnc : List Nat → List Nat → List Nat
  fernetDec : List Nat → List Nat → List Nat

/-- `asymmetric_sign` is always addressed to version 1 of a key. -/
def keyVersion1 (keyName : String) : String :=
  keyName ++ "/cryptoKeyVersions/1"

/-- Python `str(x)` for `x : Optional[str]`: `None` renders as the
literal string `"None"` inside an f-string. -/
def pyOptStr : Option String → String
  | none => "None"
  | some s => s

/-- Lookup in an association list modelling a Python dict. -/
def alookup {α : Type} (l : List (String × α)) (k : String) : Option α :=
  match l with
  | [] => none
  | p :: ps => if p.1 = k then some p.2 else alookup ps k

/-- Dict assignment `d[k] = v`: overwrites any previous binding. -/
def aset {α : Type} (l : List (String × α)) (k : String) (v : α) :
    List (String × α) :=
  (k, v) :: l.filter (fun p => p.1 != k)

/-- Dict deletion `del d[k]`. -/
def aremove {α : Type} (l : List (String × α)) (k : String) :
    List (String × α) :=
  l.filter (fun p => p.1 != k)

/-- Character-list model of Python `str.startswith`. -/
def listStarts : List Char → List Char → Bool
  | [], _ => true
  | _ :: _, [] => false
  | a :: as, b :: bs => a == b && listStarts as bs

/-- Python `s.startswith(pre)`. -/
def pyStartsWith (s pre : String) : Bool :=
  listStarts pre.data s.data

theorem listStarts_refl_append (a b : List Char) :
    listStarts a (a ++ b) = true := by
  induction a with
  | nil => rfl
  | cons x xs ih => simp [listStarts, ih]

/-- A string always starts with itself extended arbitrarily. -/
theorem pyStartsWith_append (p t : String) :
    pyStartsWith (p ++ t) p = true := by
  cases p with
  | mk pd =>
    cases t with
    | mk td =>
      show listStarts pd (pd ++ td) = true
      exact listStarts_refl_append pd td

/-- Shape of the result dicts built by
`GCULBlockchainService.verify_document_integrity`.  Keys absent from a
given dict literal are modelled as `none` / `false` defaults. -/
structure VResult where
  verified : Bool
  is_valid : Bool
  status : String
  message : Option String := none
  hash_id : Option String := none
  stored_hash : Option String := none
  expected_hash : Option String := none
  current_hash : Option String := none
  actual_hash : Option String := none
  signature_valid : Option Bool := none
  verification_status : Option String := none
  algorithm : Option String := none
  blockchain_record : Option String := none
  throttled : Bool := false
deriving DecidableEq

/-- `VerificationCache.CacheEntry`: cached data plus insertion time and
time-to-live in seconds. -/
structure CacheEntry where
  data : VResult
  timestamp : Int
  ttl : Int
deriving DecidableEq

/-- The `_cache` dict of `VerificationCache`. -/
abbrev Cache := List (String × CacheEntry)

/-- The `_request_timestamps` dict of `VerificationCache`. -/
abbrev Throttle := List (String × Int)

/-- `VerificationCache._generate_cache_key`: `"verify:{id}:{hash[:16]}"`
when a content hash is supplied, else `"verify:{id}"`. -/
def cacheKey (documentId : String) (contentHash : Option String) : String :=
  match contentHash with
  | some ch => "verify:" ++ documentId ++ ":" ++ ch.take 16
  | none => "verify:" ++ documentId

/-- `VerificationCache.get` at time `now`: miss on absent key; an entry
older than its ttl is deleted lazily and reported as a miss.  (The
service never caches an empty dict, so Python's falsiness test on the
returned dict is equivalent to the `Option` match.) -/
def cacheGet (now : Int) (cache : Cache) (documentId : String)
    (contentHash : Option String) : Option VResult × Cache :=
  let key := cacheKey documentId contentHash
  match alookup cache key with
  | none => (none, cache)
  | some e =>
    if now - e.timestamp > e.ttl then (none, aremove cache key)
    else (some e.data, cache)

/-- `VerificationCache.set` at time `now`. -/
def cacheSet (now : Int) (cache : Cache) (documentId : String)
    (contentHash : Option String) (res : VResult) (ttl : Int) : Cache :=
  aset cache (cacheKey documentId contentHash) ⟨res, now, ttl⟩

/-- `VerificationCache.is_throttled` at time `now`: returns the boolean
and the updated `_request_timestamps` state.  Python's
`if last_request and (now - last_request) < 60` treats a recorded
timestamp of exactly `0.0` as falsy, hence the `last ≠ 0` conjunct. -/
def isThrottled (now : Int) (documentId : String) (st : Throttle) :
    Bool × Throttle :=
  match alookup st documentId with
  | some last =>
    if last ≠ 0 ∧ now - last < 60 then (true, st)
    else (false, aset st documentId now)
  | none => (false, aset st documentId now)

/-- `VerificationCache.invalidate`: deletes every entry whose key starts
with the raw string `"verify:" + document_id`. -/
def invalidate (documentId : String) (cache : Cache) : Cache :=
  cache.filter (fun p => !(pyStartsWith p.1 ("verify:" ++ documentId)))

/-- One row of the `DocumentHashes` query in
`verify_document_integrity` (columns `hash_id, file_hash, content_hash,
signature, verification_status`).  `signature` is nullable. -/
structure HashRow where
  hash_id : String
  file_hash : String
  content_hash : String
  signature : Option String
  verification_status : String
deriving DecidableEq

/-- The `THROTTLED` dict literal of `verify_document_integrity`. -/
def throttledResult : VResult :=
  { verified := false, is_valid := false, status := "THROTTLED",
    message := some "Request throttled - please wait before retrying",
    throttled := true }

/-- The `NOT_FOUND` dict literal of `verify_document_integrity`. -/
def notFoundResult (currentHash : String) : VResult :=
  { verified := false, is_valid := false, status := "NOT_FOUND",
    expected_hash := some "N/A", actual_hash := some currentHash,
    algorithm := some "SHA-256", blockchain_record := some "Not Found",
    message := some "No hash record found for document" }

/-- The found-record result dict of `verify_document_integrity`:
`verified` is the hash comparison, `signature_valid` is merely the
null-check on the stored `signature` column, `blockchain_record` is
`"Found"` (the row tuple is always truthy). -/
def foundResult (currentHash : String) (row : HashRow) (ok : Bool) : VResult :=
  { verified := ok, is_valid := ok,
    status := if ok then "VERIFIED" else "TAMPERED",
    hash_id := some row.hash_id,
    stored_hash := some row.file_hash,
    expected_hash := some row.file_hash,
    current_hash := some currentHash,
    actual_hash := some currentHash,
    signature_valid := some row.signature.isSome,
    verification_status := some row.verification_status,
    algorithm := some "SHA-256",
    blockchain_record := some "Found" }

/-- The `ERROR` dict literal of the catch-all handler of
`verify_document_integrity`. -/
def errorResult (e : String) : VResult :=
  { verified := false, is_valid := false, status := "ERROR",
    expected_hash := some "N/A", actual_hash := some "N/A",
    algorithm := some "SHA-256", blockchain_record := some "Error",
    message := some ("Verification failed: " ++ e) }

/-- Mutable state touched by `verify_document_integrity`: the shared
`VerificationCache`'s two dicts. -/
structure VerifyState where
  cache : Cache
  throttle : Throttle
deriving DecidableEq

/-- Result of one `verify_document_integrity` call: the returned dict,
the updated cache state, and an effect log — how many Spanner
(Ledger Store) reads were issued, which `cache.set` calls were made
(key and ttl), and how many KMS signature-verification calls were made
(the source contains none on this path). -/
structure VerifyOutcome where
  result : VResult
  cache : Cache
  throttle : Throttle
  ledgerReads : Nat
  cacheSets : List (String × Int)
  kmsVerifyCalls : Nat
deriving DecidableEq

/-- Shallow embedding of
`GCULBlockchainService.verify_document_integrity`.  The Spanner
`SELECT ... WHERE document_id = @id ORDER BY timestamp DESC LIMIT 1`
read is abstracted as `ledger`: `Except.error e` models the read
raising, `Except.ok rows` the returned row list (at most one row, the
most recent record; the code tests `if not rows` and takes `rows[0]`).
All timestamps within one call are the single instant `now`. -/
def verifyDocumentIntegrity (c : Crypto) (now : Int) (documentId : String)
    (content : List Nat) (ledger : Except String (List HashRow))
    (st : VerifyState) : VerifyOutcome :=
  let thr := isThrottled now documentId st.throttle
  if thr.1 then
    match cacheGet now st.cache documentId none with
    | (some r, cache₁) => ⟨r, cache₁, thr.2, 0, [], 0⟩
    | (none, cache₁) => ⟨throttledResult, cache₁, thr.2, 0, [], 0⟩
  else
    let currentHash := c.sha256hex content
    match cacheGet now st.cache documentId (some currentHash) with
    | (some r, cache₁) => ⟨r, cache₁, thr.2, 0, [], 0⟩
    | (none, cache₁) =>
      match ledger with
      | .error e => ⟨errorResult e, cache₁, thr.2, 1, [], 0⟩
      | .ok [] =>
        let res := notFoundResult currentHash
        ⟨res, cacheSet now cache₁ documentId (some currentHash) res 300,
          thr.2, 1, [(cacheKey documentId (some currentHash), 300)], 0⟩
      | .ok (row :: _) =>
        let ok := currentHash == row.file_hash
        let res := foundResult currentHash row ok
        let ttl : Int := if ok then 3600 else 1800
        ⟨res, cacheSet now cache₁ documentId (some currentHash) res ttl,
          thr.2, 1, [(cacheKey documentId (some currentHash), ttl)], 0⟩

/-- A stored object in the secure bucket: ciphertext bytes plus the
string-valued blob metadata. -/
structure Blob where
  content : List Nat
  meta : List (String × String)
deriving DecidableEq

/-- The Blob Store (Cloud Storage bucket), name-indexed. -/
abbrev BlobStore := List (String × Blob)

/-- Caller-supplied document metadata dict. -/
abbrev Md := List (String × String)

/-- Python `metadata.get(k, 'unknown')`. -/
def mdGet (md : Md) (k : String) : String :=
  (alookup md k).getD "unknown"

/-- The `blob.metadata` dict assigned in `encrypt_document` (identical
on the first attempt and on the retry). -/
def blobMeta (c : Crypto) (keyName : String) (md : Md)
    (contentLen encLen : Nat) (encryptedDek : List Nat) :
    List (String × String) :=
  [("original_filename", mdGet md "file_name"),
   ("file_type", mdGet md "file_type"),
   ("user_id", mdGet md "user_id"),
   ("encrypted_with", "GCUL_envelope_encryption"),
   ("kms_key_name", keyName),
   ("original_size", toString contentLen),
   ("encrypted_size", toString encLen),
   ("envelope_metadata", c.b64e encryptedDek)]

instance {ε α : Type} [DecidableEq ε] [DecidableEq α] :
    DecidableEq (Except ε α) := fun a b =>
  match a, b with
  | .error x, .error y =>
    if h : x = y then .isTrue (by rw [h]) else .isFalse (by simp [h])
  | .error _, .ok _ => .isFalse (by simp)
  | .ok _, .error _ => .isFalse (by simp)
  | .ok x, .ok y =>
    if h : x = y then .isTrue (by rw [h]) else .isFalse (by simp [h])

/-- Result of one `encrypt_document` call: the returned blob name with
the resulting Blob Store state (or the propagated error message), the
number of `upload_from_string` attempts, whether the storage client was
re-created, and the Ledger Store inserts performed (the source performs
none in `encrypt_document`). -/
structure EncOutcome where
  outcome : Except String (String × BlobStore)
  uploadAttempts : Nat
  reconnected : Bool
  ledgerInserts : List String
deriving DecidableEq

/-- Shallow embedding of `GCULBlockchainService.encrypt_document`.
Nondeterminism is made explicit: `dek` is the random
`Fernet.generate_key()`, `blobName` the random `encrypted/{uuid}.enc`
name, `up1`/`up2` the outcomes of the first and the retry
`upload_from_string` call (`none` = success, `some e` = raises `e`),
and `credsOk` whether `_get_working_storage_credentials` yields working
credentials during the retry.  On a failed first upload the code
refreshes credentials, recreates the storage client, rebuilds the same
blob and retries exactly once; any failure inside that retry block
re-raises the original upload error. -/
def encryptDocument (c : Crypto) (keyName : String) (dek : List Nat)
    (blobName : String) (content : List Nat) (md : Md)
    (store : BlobStore) (up1 up2 : Option String) (credsOk : Bool) :
    EncOutcome :=
  let encContent := c.fernetEnc dek content
  let encryptedDek := c.kmsEnc dek
  let blob : Blob :=
    ⟨encContent, blobMeta c keyName md content.length encContent.length encryptedDek⟩
  match up1 with
  | none => ⟨.ok (blobName, aset store blobName blob), 1, false, []⟩
  | some e =>
    if credsOk then
      match up2 with
      | none => ⟨.ok (blobName, aset store blobName blob), 2, true, []⟩
      | some _ => ⟨.error e, 2, true, []⟩
    else ⟨.error e, 1, false, []⟩

/-- Shallow embedding of `GCULBlockchainService.decrypt_document`.  A
missing blob raises; a blob tagged `GCUL_envelope_encryption` takes the
envelope path (base64-decode the wrapped DEK from `envelope_metadata`,
unwrap it with KMS, Fernet-decrypt the content); any other blob takes
the legacy direct-KMS path.  An empty metadata dict is falsy in Python
and also routes to the legacy path, which the `alookup` mismatch
reproduces. -/
def decryptDocument (c : Crypto) (store : BlobStore) (blobName : String) :
    Except String (List Nat) :=
  match alookup store blobName with
  | none => .error ("Encrypted blob not found: " ++ blobName)
  | some blob =>
    if alookup blob.meta "encrypted_with" = some "GCUL_envelope_encryption" then
      match alookup blob.meta "envelope_metadata" with
      | none => .error "Envelope metadata not found in blob"
      | some encryptedDek64 =>
        .ok (c.fernetDec (c.kmsDec (c.b64d encryptedDek64)) blob.content)
    else
      .ok (c.kmsDec blob.content)

/-- One row of the `HashChain` table as inserted by
`_add_to_hash_chain` (the random `chain_id` and the timestamp column
are irrelevant to the chain invariants and omitted). -/
structure ChainBlock where
  block_number : Nat
  previous_hash : Option String
  current_hash : String
  document_hashes : List String
  merkle_root : String
  signature : String
deriving DecidableEq

/-- Accumulator pass of the `ORDER BY block_number DESC LIMIT 1` read:
keeps the row with the greatest `block_number`, preferring the later
row on ties. -/
def latestAux (acc : Option ChainBlock) : List ChainBlock → Option ChainBlock
  | [] => acc
  | b :: bs =>
    match acc with
    | none => latestAux (some b) bs
    | some a =>
      latestAux (if a.block_number ≤ b.block_number then some b else some a) bs

/-- The `SELECT chain_id, block_number, current_hash FROM HashChain
ORDER BY block_number DESC LIMIT 1` read over the stored blocks. -/
def latestBlock (bs : List ChainBlock) : Option ChainBlock :=
  latestAux none bs

/-- The f-string `"{block_number}:{previous_hash}:{merkle_root}"`
recomputed from a stored block's fields (`None` renders as `"None"`). -/
def blockData (b : ChainBlock) : String :=
  toString b.block_number ++ ":" ++ pyOptStr b.previous_hash ++ ":" ++ b.merkle_root

/-- Shallow embedding of `GCULBlockchainService._add_to_hash_chain`:
read the highest-numbered block (absence means genesis), aggregate the
document hash ids with `sha256(''.join(hashes))`, link and hash the new
block, sign `sha256(current_hash)`, and append the row.  The Ledger
Store is the list of rows in insertion order. -/
def addToHashChain (c : Crypto) (signingKeyName : String)
    (documentHashes : List String) (chain : List ChainBlock) :
    List ChainBlock :=
  let latest := latestBlock chain
  let previousHash : Option String :=
    match latest with
    | some lb => some lb.current_hash
    | none => none
  let blockNumber : Nat :=
    match latest with
    | some lb => lb.block_number + 1
    | none => 0
  let merkleRoot := c.sha256hex (c.utf8 (String.join documentHashes))
  let bd := toString blockNumber ++ ":" ++ pyOptStr previousHash ++ ":" ++ merkleRoot
  let currentHash := c.sha256hex (c.utf8 bd)
  let signature :=
    c.b64e (c.kmsSign (keyVersion1 signingKeyName) (c.sha256dig (c.utf8 currentHash)))
  chain ++ [⟨blockNumber, previousHash, currentHash, documentHashes,
             merkleRoot, signature⟩]

/-- A sequence of sequential `appendBlock` calls starting from an empty
Ledger Store. -/
def chainAppendAll (c : Crypto) (signingKeyName : String)
    (calls : List (List String)) : List ChainBlock :=
  calls.foldl (fun st cl => addToHashChain c signingKeyName cl st) []

/-- The row inserted into `DocumentHashes` by
`create_document_hash_record` (the timestamp column is an opaque
insertion instant and omitted). -/
structure HashRecordRow where
  hash_id : String
  document_id : String
  file_hash : String
  content_hash : String
  kms_key_version : String
  signature : String
  user_id : String
  file_size : Nat
  mime_type : String
  verification_status : String
deriving DecidableEq

/-- The `asymmetric_sign` request issued by
`create_document_hash_record`: target key version and sha256 digest. -/
structure SignRequest where
  name : String
  digest : List Nat
deriving DecidableEq

/-- Result of one `create_document_hash_record` call: the signature
request it sent to KMS, the `DocumentHashes` row it inserted, the
returned hash id, and the `HashChain` table after the synchronous
`_add_to_hash_chain([hash_id])` append. -/
structure CreateOutcome where
  signReq : SignRequest
  row : HashRecordRow
  hashId : String
  chain : List ChainBlock
deriving DecidableEq

/-- Shallow embedding of
`GCULBlockchainService.create_document_hash_record`.  `hashId` is the
random `uuid4`; `encKeyName`/`signingKeyName` are the configured KMS
key paths.  The payload signed is the UTF-8 bytes of the f-string
`"{file_hash}:{content_hash}:{document_id}"`, hashed with SHA-256. -/
def createDocumentHashRecord (c : Crypto) (encKeyName signingKeyName : String)
    (hashId documentId : String) (content : List Nat)
    (extractedText : String) (userId : String) (md : Md)
    (chain : List ChainBlock) : CreateOutcome :=
  let fileHash := c.sha256hex content
  let contentHash := c.sha256hex (c.utf8 extractedText)
  let hashToSign := c.utf8 (fileHash ++ ":" ++ contentHash ++ ":" ++ documentId)
  let signReq : SignRequest := ⟨keyVersion1 signingKeyName, c.sha256dig hashToSign⟩
  let signature := c.b64e (c.kmsSign signReq.name signReq.digest)
  let row : HashRecordRow :=
    ⟨hashId, documentId, fileHash, contentHash, keyVersion1 encKeyName,
     signature, userId, content.length,
     (alookup md "mime_type").getD "application/octet-stream",
     "VERIFIED"⟩
  ⟨signReq, row, hashId, addToHashChain c signingKeyName [hashId] chain⟩

/-- The chain-continuity invariant of the claim set, over a stored
`HashChain` table read from block 0 forward: block numbers are the
positions, each stored `current_hash` is reproduced by rehashing the
f-string rebuilt from that block's stored fields, the genesis block has
a null `previous_hash`, and every later block's `previous_hash` is the
previous block's `current_hash`. -/
def chainOk (c : Crypto) (bs : List ChainBlock) : Prop :=
  ∀ k, (h : k < bs.length) →
    bs[k].block_number = k ∧
    bs[k].current_hash = c.sha256hex (c.utf8 (blockData bs[k])) ∧
    (k = 0 → bs[k].previous_hash = none) ∧
    ∀ (h1 : 1 ≤ k) (h2 : k - 1 < bs.length), bs[k].previous_hash =
      some bs[k - 1].current_hash

/-- A concrete executable instantiation of the abstract primitives,
used to evaluate the theorems on closed inputs. -/
def cEx : Crypto where
  sha256hex := fun bs => toString bs
  sha256dig := fun bs => 0 :: bs
  utf8 := fun s => s.data.map Char.toNat
  b64e := fun bs => String.mk (bs.map Char.ofNat)
  b64d := fun s => s.data.map Char.toNat
  kmsEnc := fun bs => bs
  kmsDec := fun bs => bs
  kmsSign := fun _ bs => bs
  fernetEnc := fun k m => k ++ m
  fernetDec := fun k m => m.drop k.length

theorem alookup_aset_self {α : Type} (l : List (String × α)) (k : String)
    (v : α) : alookup (aset l k v) k = some v := by
  simp [alookup, aset]

/-- Looking up in a key-filtered dict. -/
theorem alookup_filterKey {α : Type} (q : String → Bool)
    (l : List (String × α)) (k : String) :
    alookup (l.filter fun p => q p.1) k =
      if q k then alookup l k else none := by
  induction l with
  | nil => cases hq : q k <;> simp [alookup, hq]
  | cons p ps ih =>
    by_cases hk : p.1 = k
    · subst hk
      cases hq : q p.1 <;> simp [List.filter, alookup, hq, ih]
    · cases hq : q p.1 <;> simp [List.filter, alookup, hq, hk, ih]

/-- C5: signing payload framing.  Every `create_document_hash_record`
call sends the Key Service exactly one signature request, targeting the
fixed key version `{signing_key}/cryptoKeyVersions/1` and carrying the
SHA-256 digest of the UTF-8 bytes of
`hex(SHA256(content)) + ":" + hex(SHA256(utf8(extracted_text))) + ":" +
document_id`, in that order with `":"` separators. -/
theorem signing_payload_framing (c : Crypto)
    (encKeyName signingKeyName hashId documentId : String)
    (content : List Nat) (extractedText userId : String) (md : Md)
    (chain : List ChainBlock) :
    (createDocumentHashRecord c encKeyName signingKeyName hashId documentId
        content extractedText userId md chain).signReq =
      ⟨signingKeyName ++ "/cryptoKeyVersions/1",
       c.sha256dig (c.utf8 (c.sha256hex content ++ ":" ++
         c.sha256hex (c.utf8 extractedText) ++ ":" ++ documentId))⟩ := rfl

/-- C6: throttle window semantics of `VerificationCache.is_throttled`.
With every recorded timestamp a real `time.time()` instant (nonzero),
(a) if no recorded request for the id lies within the last 60 seconds
the call returns `false` and records `now`; (b) if the last recorded
request is less than 60 seconds old the call returns `true` and leaves
the state unchanged; (c) from a state with no recording, two calls
within 60 seconds return `false` then `true`, and a third call after
the 60-second window has elapsed returns `false` again. -/
theorem throttle_window_semantics (st : Throttle) (documentId : String)
    (now t0 t1 t2 : Int) :
    ((∀ t, alookup st documentId = some t → t ≠ 0 → 60 ≤ now - t) →
      isThrottled now documentId st = (false, aset st documentId now)) ∧
    (∀ t, alookup st documentId = some t → t ≠ 0 → now - t < 60 →
      isThrottled now documentId st = (true, st)) ∧
    (alookup st documentId = none → t0 ≠ 0 → t0 ≤ t1 → t1 < t0 + 60 →
      t0 + 60 ≤ t2 →
      (isThrottled t0 documentId st).1 = false ∧
      (isThrottled t1 documentId (isThrottled t0 documentId st).2).1 = true ∧
      (isThrottled t2 documentId
        (isThrottled t1 documentId (isThrottled t0 documentId st).2).2).1 =
        false) := by
  refine ⟨?_, ?_, ?_⟩
  · intro h
    unfold isThrottled
    cases hl : alookup st documentId with
    | none => rfl
    | some t =>
      by_cases ht : t = 0
      · simp [ht]
      · have h60 := h t hl ht
        have hnlt : ¬ (now - t < 60) := by omega
        simp [ht, hnlt]
  · intro t hl ht hlt
    unfold isThrottled
    rw [hl]
    show (if t ≠ 0 ∧ now - t < 60 then (true, st)
      else (false, aset st documentId now)) = (true, st)
    rw [if_pos ⟨ht, hlt⟩]
  · intro hl ht0 h01 h1w h2w
    have s0 : isThrottled t0 documentId st = (false, aset st documentId t0) := by
      unfold isThrottled; rw [hl]
    have hl0 : alookup (aset st documentId t0) documentId = some t0 :=
      alookup_aset_self st documentId t0
    have s1 : isThrottled t1 documentId (aset st documentId t0) =
        (true, aset st documentId t0) := by
      unfold isThrottled
      rw [hl0]
      show (if t0 ≠ 0 ∧ t1 - t0 < 60 then (true, aset st documentId t0)
        else (false, aset (aset st documentId t0) documentId t1)) =
        (true, aset st documentId t0)
      rw [if_pos ⟨ht0, by omega⟩]
    have s2 : (isThrottled t2 documentId (aset st documentId t0)).1 = false := by
      unfold isThrottled
      rw [hl0]
      show (if t0 ≠ 0 ∧ t2 - t0 < 60 then (true, aset st documentId t0)
        else (false, aset (aset st documentId t0) documentId t2)).1 = false
      rw [if_neg (by omega)]
    refine ⟨by rw [s0], ?_, ?_⟩
    · rw [s0, s1]
    · rw [s0]
      show (isThrottled t2 documentId (isThrottled t1 documentId
        (aset st documentId t0)).2).1 = false
      rw [s1]
      exact s2

/-- Closed-input check of `throttle_window_semantics`: calls at times
100, 130 and 200 from an empty throttle map. -/
theorem throttle_window_semantics_witness :
    (isThrottled 100 "doc-1" []).1 = false ∧
    (isThrottled 130 "doc-1" (isThrottled 100 "doc-1" []).2).1 = true ∧
    (isThrottled 200 "doc-1"
      (isThrottled 130 "doc-1" (isThrottled 100 "doc-1" []).2).2).1 = false :=
  (throttle_window_semantics [] "doc-1" 0 100 130 200).2.2
    (by decide) (by decide) (by decide) (by decide) (by decide)

/-- On a non-throttled, cache-missing call, `verify_document_integrity`
reaches the Ledger Store read and its outcome is determined by the
query result. -/
theorem verify_main_path (c : Crypto) (now : Int) (documentId : String)
    (content : List Nat) (ledger : Except String (List HashRow))
    (st : VerifyState)
    (hthr : (isThrottled now documentId st.throttle).1 = false)
    (hmiss : (cacheGet now st.cache documentId
      (some (c.sha256hex content))).1 = none) :
    verifyDocumentIntegrity c now documentId content ledger st =
      (let currentHash := c.sha256hex content
       let cache₁ := (cacheGet now st.cache documentId (some currentHash)).2
       let thr2 := (isThrottled now documentId st.throttle).2
       match ledger with
       | .error e => ⟨errorResult e, cache₁, thr2, 1, [], 0⟩
       | .ok [] =>
         ⟨notFoundResult currentHash,
          cacheSet now cache₁ documentId (some currentHash)
            (notFoundResult currentHash) 300,
          thr2, 1, [(cacheKey documentId (some currentHash), 300)], 0⟩
       | .ok (row :: _) =>
         let ok := currentHash == row.file_hash
         ⟨foundResult currentHash row ok,
          cacheSet now cache₁ documentId (some currentHash)
            (foundResult currentHash row ok) (if ok then 3600 else 1800),
          thr2, 1,
          [(cacheKey documentId (some currentHash), if ok then 3600 else 1800)],
          0⟩) := by
  unfold verifyDocumentIntegrity
  simp only [hthr, Bool.false_eq_true, if_false]
  rcases hp : cacheGet now st.cache documentId (some (c.sha256hex content))
    with ⟨r, cache₁⟩
  rw [hp] at hmiss
  simp only at hmiss
  subst hmiss
  cases ledger with
  | error e => rfl
  | ok rows => cases rows <;> rfl

/-- C2: verification correctness.  On a non-throttled, cache-missing
call, if the Ledger Store returns a most-recent record whose
`file_hash` equals `SHA256(content)` the result is verified/VERIFIED;
if the hashes differ it is unverified/TAMPERED; if the document has no
record it is unverified/NOT_FOUND. -/
theorem verify_correctness (c : Crypto) (now : Int) (documentId : String)
    (st : VerifyState) (content : List Nat) (rows : List HashRow)
    (hthr : (isThrottled now documentId st.throttle).1 = false)
    (hmiss : (cacheGet now st.cache documentId
      (some (c.sha256hex content))).1 = none) :
    (∀ row rest, rows = row :: rest → row.file_hash = c.sha256hex content →
      (verifyDocumentIntegrity c now documentId content (.ok rows) st).result.verified
        = true ∧
      (verifyDocumentIntegrity c now documentId content (.ok rows) st).result.status
        = "VERIFIED") ∧
    (∀ row rest, rows = row :: rest → row.file_hash ≠ c.sha256hex content →
      (verifyDocumentIntegrity c now documentId content (.ok rows) st).result.verified
        = false ∧
      (verifyDocumentIntegrity c now documentId content (.ok rows) st).result.status
        = "TAMPERED") ∧
    (rows = [] →
      (verifyDocumentIntegrity c now documentId content (.ok rows) st).result.verified
        = false ∧
      (verifyDocumentIntegrity c now documentId content (.ok rows) st).result.status
        = "NOT_FOUND") := by
  refine ⟨?_, ?_, ?_⟩
  · intro row rest hr hfh
    subst hr
    rw [verify_main_path c now documentId content _ st hthr hmiss]
    have hb : (c.sha256hex content == row.file_hash) = true := by
      simp [hfh]
    simp [foundResult, hb]
  · intro row rest hr hfh
    subst hr
    rw [verify_main_path c now documentId content _ st hthr hmiss]
    have hb : (c.sha256hex content == row.file_hash) = false := by
      simp [beq_eq_false_iff_ne]
      exact fun h => hfh h.symm
    simp [foundResult, hb]
  · intro hr
    subst hr
    rw [verify_main_path c now documentId content _ st hthr hmiss]
    simp [notFoundResult]

/-- A stored record for closed-input checks: its `file_hash` is the
model digest of the bytes `[1, 2]`. -/
def rEx : HashRow := ⟨"hash-1", cEx.sha256hex [1, 2], "chash", some "sig", "VERIFIED"⟩

/-- Closed-input check of `verify_correctness`: matching content
verifies, different content is tampered, an unknown document is not
found. -/
theorem verify_correctness_witness :
    (verifyDocumentIntegrity cEx 100 "doc-1" [1, 2] (.ok [rEx])
      ⟨[], []⟩).result.status = "VERIFIED" ∧
    (verifyDocumentIntegrity cEx 100 "doc-1" [9] (.ok [rEx])
      ⟨[], []⟩).result.status = "TAMPERED" ∧
    (verifyDocumentIntegrity cEx 100 "doc-2" [1, 2] (.ok [])
      ⟨[], []⟩).result.status = "NOT_FOUND" :=
  ⟨((verify_correctness cEx 100 "doc-1" ⟨[], []⟩ [1, 2] [rEx]
      (by decide) (by decide)).1 rEx [] rfl (by decide)).2,
   ((verify_correctness cEx 100 "doc-1" ⟨[], []⟩ [9] [rEx]
      (by decide) (by decide)).2.1 rEx [] rfl (by decide)).2,
   ((verify_correctness cEx 100 "doc-2" ⟨[], []⟩ [1, 2] []
      (by decide) (by decide)).2.2 rfl).2⟩

/-- C8: verification error degradation.  If the Ledger Store read
raises during a non-throttled, cache-missing call, the call still
returns (the embedding is total, mirroring the catch-all handler) with
`verified = false` and status `"ERROR"`, and performs no `cache.set`. -/
theorem verify_error_degradation (c : Crypto) (now : Int)
    (documentId : String) (content : List Nat) (e : String)
    (st : VerifyState)
    (hthr : (isThrottled now documentId st.throttle).1 = false)
    (hmiss : (cacheGet now st.cache documentId
      (some (c.sha256hex content))).1 = none) :
    (verifyDocumentIntegrity c now documentId content (.error e) st).result
      = errorResult e ∧
    (verifyDocumentIntegrity c now documentId content (.error e) st).result.verified
      = false ∧
    (verifyDocumentIntegrity c now documentId content (.error e) st).result.status
      = "ERROR" ∧
    (verifyDocumentIntegrity c now documentId content (.error e) st).cacheSets
      = [] := by
  rw [verify_main_path c now documentId content _ st hthr hmiss]
  exact ⟨rfl, rfl, rfl, rfl⟩

/-- Closed-input check of `verify_error_degradation`. -/
theorem verify_error_degradation_witness :
    (verifyDocumentIntegrity cEx 100 "doc-1" [1, 2] (.error "spanner down")
      ⟨[], []⟩).result.status = "ERROR" ∧
    (verifyDocumentIntegrity cEx 100 "doc-1" [1, 2] (.error "spanner down")
      ⟨[], []⟩).cacheSets = [] :=
  ⟨(verify_error_degradation cEx 100 "doc-1" [1, 2] "spanner down" ⟨[], []⟩
      (by decide) (by decide)).2.2.1,
   (verify_error_degradation cEx 100 "doc-1" [1, 2] "spanner down" ⟨[], []⟩
      (by decide) (by decide)).2.2.2⟩

/-- C10: no cryptographic signature check during verification.  When a
stored record is reached, the returned `signature_valid` is exactly the
null-check on the stored `signature` column, and the path performs zero
Key Service verification calls (the source never invokes one). -/
theorem verify_signature_unchecked (c : Crypto) (now : Int)
    (documentId : String) (content : List Nat) (row : HashRow)
    (rest : List HashRow) (st : VerifyState)
    (hthr : (isThrottled now documentId st.throttle).1 = false)
    (hmiss : (cacheGet now st.cache documentId
      (some (c.sha256hex content))).1 = none) :
    (verifyDocumentIntegrity c now documentId content (.ok (row :: rest))
      st).result.signature_valid = some row.signature.isSome ∧
    (verifyDocumentIntegrity c now documentId content (.ok (row :: rest))
      st).kmsVerifyCalls = 0 := by
  rw [verify_main_path c now documentId content _ st hthr hmiss]
  exact ⟨rfl, rfl⟩

/-- A stored record whose `signature` column is null. -/
def rExNoSig : HashRow := ⟨"hash-2", "fh", "chash", none, "VERIFIED"⟩

/-- Closed-input check of `verify_signature_unchecked`: a record with a
non-null signature column yields `signature_valid = some true`, a
record with a null one yields `some false`. -/
theorem verify_signature_unchecked_witness :
    (verifyDocumentIntegrity cEx 100 "doc-1" [1, 2] (.ok [rEx])
      ⟨[], []⟩).result.signature_valid = some true ∧
    (verifyDocumentIntegrity cEx 100 "doc-1" [1, 2] (.ok [rExNoSig])
      ⟨[], []⟩).result.signature_valid = some false :=
  ⟨(verify_signature_unchecked cEx 100 "doc-1" [1, 2] rEx [] ⟨[], []⟩
      (by decide) (by decide)).1,
   (verify_signature_unchecked cEx 100 "doc-1" [1, 2] rExNoSig [] ⟨[], []⟩
      (by decide) (by decide)).1⟩

/-- C4 (code bug): a first completed `verify_document_integrity` call
caches its result under the hash-suffixed key
`verify:doc-1:{hash[:16]}`, but the throttled second call one second
later looks up the unsuffixed key `verify:doc-1`, which no writer ever
populates, so it returns the THROTTLED result instead of the cached
one (it does perform zero Ledger Store reads). -/
theorem verify_throttled_second_call :
    (verifyDocumentIntegrity cEx 100 "doc-1" [1, 2] (.ok [rEx])
      ⟨[], []⟩).result.status = "VERIFIED" ∧
    (alookup (verifyDocumentIntegrity cEx 100 "doc-1" [1, 2] (.ok [rEx])
        ⟨[], []⟩).cache
      (cacheKey "doc-1" (some (cEx.sha256hex [1, 2])))).isSome = true ∧
    (verifyDocumentIntegrity cEx 101 "doc-1" [1, 2] (.ok [rEx])
      ⟨(verifyDocumentIntegrity cEx 100 "doc-1" [1, 2] (.ok [rEx])
          ⟨[], []⟩).cache,
       (verifyDocumentIntegrity cEx 100 "doc-1" [1, 2] (.ok [rEx])
          ⟨[], []⟩).throttle⟩).result = throttledResult ∧
    (verifyDocumentIntegrity cEx 101 "doc-1" [1, 2] (.ok [rEx])
      ⟨(verifyDocumentIntegrity cEx 100 "doc-1" [1, 2] (.ok [rEx])
          ⟨[], []⟩).cache,
       (verifyDocumentIntegrity cEx 100 "doc-1" [1, 2] (.ok [rEx])
          ⟨[], []⟩).throttle⟩).result.status ≠ "VERIFIED" ∧
    (verifyDocumentIntegrity cEx 101 "doc-1" [1, 2] (.ok [rEx])
      ⟨(verifyDocumentIntegrity cEx 100 "doc-1" [1, 2] (.ok [rEx])
          ⟨[], []⟩).cache,
       (verifyDocumentIntegrity cEx 100 "doc-1" [1, 2] (.ok [rEx])
          ⟨[], []⟩).throttle⟩).ledgerReads = 0 := by
  decide

/-- C7: encrypt retry policy.  `encrypt_document` performs no Ledger
Store write at all; a successful first upload makes exactly one
attempt; on a failed first upload, if a fresh client can be
established exactly one retry attempt follows (success completes the
operation normally, failure propagates the original upload error), and
if no working credentials can be obtained the original error is
likewise propagated. -/
theorem encrypt_retry_policy (c : Crypto) (keyName : String)
    (dek : List Nat) (blobName : String) (content : List Nat) (md : Md)
    (store : BlobStore) (e : String) (up2 : Option String)
    (credsOk : Bool) :
    (encryptDocument c keyName dek blobName content md store (some e) up2
      credsOk).ledgerInserts = [] ∧
    (encryptDocument c keyName dek blobName content md store none up2
      credsOk).uploadAttempts = 1 ∧
    (credsOk = true →
      (encryptDocument c keyName dek blobName content md store (some e) up2
        credsOk).uploadAttempts = 2 ∧
      (encryptDocument c keyName dek blobName content md store (some e) up2
        credsOk).reconnected = true ∧
      (up2 = none →
        (encryptDocument c keyName dek blobName content md store (some e) up2
          credsOk).outcome =
          (encryptDocument c keyName dek blobName content md store none none
            credsOk).outcome) ∧
      (∀ e2, up2 = some e2 →
        (encryptDocument c keyName dek blobName content md store (some e) up2
          credsOk).outcome = .error e)) ∧
    (credsOk = false →
      (encryptDocument c keyName dek blobName content md store (some e) up2
        credsOk).outcome = .error e ∧
      (encryptDocument c keyName dek blobName content md store (some e) up2
        credsOk).uploadAttempts = 1) := by
  refine ⟨?_, rfl, ?_, ?_⟩
  · cases credsOk <;> cases up2 <;> rfl
  · intro hc
    subst hc
    refine ⟨?_, ?_, ?_, ?_⟩
    · cases up2 <;> rfl
    · cases up2 <;> rfl
    · intro h2; subst h2; rfl
    · intro e2 h2; subst h2; rfl
  · intro hc
    subst hc
    exact ⟨rfl, rfl⟩

/-- Closed-input check of `encrypt_retry_policy`: with a failing first
upload, a successful reconnect and a failing retry, the call makes two
attempts and propagates the original error; with no ledger insert. -/
theorem encrypt_retry_policy_witness :
    (encryptDocument cEx "key" [1, 2] "blob" [5, 6] [] [] (some "boom")
      (some "boom2") true).outcome = .error "boom" ∧
    (encryptDocument cEx "key" [1, 2] "blob" [5, 6] [] [] (some "boom")
      (some "boom2") true).uploadAttempts = 2 ∧
    (encryptDocument cEx "key" [1, 2] "blob" [5, 6] [] [] (some "boom")
      (some "boom2") true).ledgerInserts = [] :=
  ⟨((encrypt_retry_policy cEx "key" [1, 2] "blob" [5, 6] [] [] "boom"
      (some "boom2") true).2.2.1 rfl).2.2.2 "boom2" rfl,
   ((encrypt_retry_policy cEx "key" [1, 2] "blob" [5, 6] [] [] "boom"
      (some "boom2") true).2.2.1 rfl).1,
   (encrypt_retry_policy cEx "key" [1, 2] "blob" [5, 6] [] [] "boom"
      (some "boom2") true).1⟩

/-- C3: envelope round-trip.  If the symmetric cipher, the Key
Service's unwrap and base64 invert their encoding counterparts on the
data key at hand, then decrypting the blob produced by a successful
`encrypt_document` returns the original content (the Blob Store model
returns exactly what was stored). -/
theorem decrypt_encrypt_roundtrip (c : Crypto) (keyName : String)
    (dek content : List Nat) (blobName : String) (md : Md)
    (store : BlobStore) (up1 up2 : Option String) (credsOk : Bool)
    (bn : String) (store' : BlobStore)
    (hFer : c.fernetDec dek (c.fernetEnc dek content) = content)
    (hKms : c.kmsDec (c.kmsEnc dek) = dek)
    (hB64 : c.b64d (c.b64e (c.kmsEnc dek)) = c.kmsEnc dek)
    (hok : (encryptDocument c keyName dek blobName content md store up1 up2
      credsOk).outcome = .ok (bn, store')) :
    decryptDocument c store' bn = .ok content := by
  have hbs : bn = blobName ∧ store' = aset store blobName
      ⟨c.fernetEnc dek content,
       blobMeta c keyName md content.length (c.fernetEnc dek content).length
         (c.kmsEnc dek)⟩ := by
    cases up1 with
    | none =>
      simp [encryptDocument] at hok
      exact ⟨hok.1.symm, hok.2.symm⟩
    | some e =>
      cases credsOk with
      | true =>
        cases up2 with
        | none =>
          simp [encryptDocument] at hok
          exact ⟨hok.1.symm, hok.2.symm⟩
        | some e2 => simp [encryptDocument] at hok
      | false => simp [encryptDocument] at hok
  obtain ⟨hbn, hst⟩ := hbs
  subst hbn
  subst hst
  unfold decryptDocument
  rw [alookup_aset_self]
  simp only [blobMeta, alookup, String.reduceEq, reduceIte]
  rw [hB64, hKms, hFer]

/-- The Blob Store state produced by a concrete successful
`encrypt_document` call, for the closed-input round-trip check. -/
def storeEx : BlobStore :=
  aset ([] : BlobStore) "blob"
    ⟨cEx.fernetEnc [1, 2] [5, 6],
     blobMeta cEx "key" [] 2 (cEx.fernetEnc [1, 2] [5, 6]).length
       (cEx.kmsEnc [1, 2])⟩

/-- Closed-input check of `decrypt_encrypt_roundtrip`. -/
theorem decrypt_encrypt_roundtrip_witness :
    decryptDocument cEx storeEx "blob" = .ok [5, 6] :=
  decrypt_encrypt_roundtrip cEx "key" [1, 2] [5, 6] "blob" [] [] none none
    true "blob" storeEx (by decide) (by decide) (by decide) (by decide)

theorem strAppend_assoc (a b c : String) : (a ++ b) ++ c = a ++ (b ++ c) := by
  cases a with
  | mk ad =>
    cases b with
    | mk bd =>
      cases c with
      | mk cd =>
        show String.mk ((ad ++ bd) ++ cd) = String.mk (ad ++ (bd ++ cd))
        rw [List.append_assoc]

/-- Every cache key of a document whose id extends `d2` starts with the
raw invalidation string of `d2`. -/
theorem cacheKey_starts (d2 r : String) (chash : Option String) :
    pyStartsWith (cacheKey (d2 ++ r) chash) ("verify:" ++ d2) = true := by
  cases chash with
  | none =>
    show pyStartsWith ("verify:" ++ (d2 ++ r)) ("verify:" ++ d2) = true
    rw [← strAppend_assoc]
    exact pyStartsWith_append ("verify:" ++ d2) r
  | some ch =>
    show pyStartsWith ((("verify:" ++ (d2 ++ r)) ++ ":") ++ ch.take 16)
      ("verify:" ++ d2) = true
    rw [← strAppend_assoc "verify:" d2 r,
      strAppend_assoc ("verify:" ++ d2) r ":",
      strAppend_assoc ("verify:" ++ d2) (r ++ ":") (ch.take 16)]
    exact pyStartsWith_append ("verify:" ++ d2) ((r ++ ":") ++ ch.take 16)

/-- Looking up any key after `VerificationCache.invalidate`. -/
theorem alookup_invalidate (documentId k : String) (cache : Cache) :
    alookup (invalidate documentId cache) k =
      if !(pyStartsWith k ("verify:" ++ documentId)) then alookup cache k
      else none := by
  unfold invalidate
  exact alookup_filterKey
    (fun key => !pyStartsWith key ("verify:" ++ documentId)) cache k

/-- C9 (amended): invalidation matches on the raw string
`"verify:" + d2`.  For distinct ids with `d1 = d2 ++ r`, `invalidate d2`
removes every cache entry keyed for `d1` (hash-suffixed or not), and
every entry whose key does not start with `"verify:" + d2` survives
unchanged.  (As originally stated — "entries of documents whose IDs do
not start with d2 are left unchanged" — the claim is false: see the
counterexample theorem.) -/
theorem invalidate_raw_matching (d1 d2 r : String) (cache : Cache)
    (h : d1 = d2 ++ r) :
    (∀ chash, alookup (invalidate d2 cache) (cacheKey d1 chash) = none) ∧
    (∀ k, pyStartsWith k ("verify:" ++ d2) = false →
      alookup (invalidate d2 cache) k = alookup cache k) := by
  subst h
  constructor
  · intro chash
    rw [alookup_invalidate, cacheKey_starts]
    rfl
  · intro k hk
    rw [alookup_invalidate, hk]
    rfl

/-- A cache entry for the invalidation checks. -/
def eC9 : CacheEntry := ⟨notFoundResult "x", 50, 3600⟩

/-- Cache for the C9 counterexample: one entry for document `doc:ab`,
one for document `doc` under a content hash starting with `a`. -/
def cacheC9 : Cache :=
  [(cacheKey "doc:ab" (some "zz"), eC9),
   (cacheKey "doc" (some "a234567890123456"), eC9)]

/-- C9 as stated is false: with `d1 = "doc:ab"` and `d2 = "doc:a"`
(distinct, `d2` a string prefix of `d1`), `invalidate d2` also removes
the entry of document `"doc"`, whose id does not start with `d2` —
its key `verify:doc:a234567890123456` happens to extend
`verify:doc:a`. -/
theorem invalidate_over_match_counterexample :
    ("doc:ab" ≠ "doc:a") ∧
    pyStartsWith "doc:ab" "doc:a" = true ∧
    pyStartsWith "doc" "doc:a" = false ∧
    alookup cacheC9 (cacheKey "doc" (some "a234567890123456")) = some eC9 ∧
    alookup (invalidate "doc:a" cacheC9)
      (cacheKey "doc" (some "a234567890123456")) = none := by
  decide

/-- Cache for the closed-input check of `invalidate_raw_matching`. -/
def cacheC9w : Cache :=
  [(cacheKey "doc-12" (some "hh"), eC9), (cacheKey "zeta" (some "hh"), eC9)]

/-- Closed-input check of `invalidate_raw_matching`: invalidating
`"doc"` removes the entry of `"doc-12"` and leaves the entry of
`"zeta"` unchanged. -/
theorem invalidate_raw_matching_witness :
    alookup (invalidate "doc" cacheC9w) (cacheKey "doc-12" (some "hh"))
      = none ∧
    alookup (invalidate "doc" cacheC9w) (cacheKey "zeta" (some "hh"))
      = alookup cacheC9w (cacheKey "zeta" (some "hh")) :=
  ⟨(invalidate_raw_matching "doc-12" "doc" "-12" cacheC9w (by decide)).1
      (some "hh"),
   (invalidate_raw_matching "doc-12" "doc" "-12" cacheC9w (by decide)).2
      (cacheKey "zeta" (some "hh")) (by decide)⟩

/-- The single block built by one `_add_to_hash_chain` call, as a
function of the latest stored block. -/
def mkBlock (c : Crypto) (sk : String) (call : List String)
    (latest : Option ChainBlock) : ChainBlock :=
  let previousHash : Option String :=
    match latest with
    | some lb => some lb.current_hash
    | none => none
  let blockNumber : Nat :=
    match latest with
    | some lb => lb.block_number + 1
    | none => 0
  let merkleRoot := c.sha256hex (c.utf8 (String.join call))
  let bd := toString blockNumber ++ ":" ++ pyOptStr previousHash ++ ":" ++ merkleRoot
  let currentHash := c.sha256hex (c.utf8 bd)
  let signature :=
    c.b64e (c.kmsSign (keyVersion1 sk) (c.sha256dig (c.utf8 currentHash)))
  ⟨blockNumber, previousHash, currentHash, call, merkleRoot, signature⟩

/-- `_add_to_hash_chain` appends exactly the block determined by the
latest stored one. -/
theorem addToHashChain_eq (c : Crypto) (sk : String) (call : List String)
    (bs : List ChainBlock) :
    addToHashChain c sk call bs = bs ++ [mkBlock c sk call (latestBlock bs)] :=
  rfl

/-- The stored `current_hash` of a freshly built block is reproduced by
rehashing the f-string rebuilt from its own stored fields. -/
theorem mkBlock_recompute (c : Crypto) (sk : String) (call : List String)
    (latest : Option ChainBlock) :
    (mkBlock c sk call latest).current_hash =
      c.sha256hex (c.utf8 (blockData (mkBlock c sk call latest))) :=
  rfl

/-- Unrolling the max-block read over a final singleton. -/
theorem latestAux_append_single (l : List ChainBlock) :
    ∀ (acc : Option ChainBlock) (b : ChainBlock),
    latestAux acc (l ++ [b]) =
      match latestAux acc l with
      | none => some b
      | some a =>
        if a.block_number ≤ b.block_number then some b else some a := by
  induction l with
  | nil =>
    intro acc b
    cases acc with
    | none => rfl
    | some a =>
      show latestAux
        (if a.block_number ≤ b.block_number then some b else some a) [] = _
      by_cases h : a.block_number ≤ b.block_number <;> simp [latestAux, h]
  | cons x l ih =>
    intro acc b
    cases acc with
    | none =>
      show latestAux (some x) (l ++ [b]) = _
      rw [ih (some x) b]
      rfl
    | some a =>
      show latestAux
        (if a.block_number ≤ x.block_number then some x else some a)
        (l ++ [b]) = _
      rw [ih _ b]
      rfl

/-- Induction invariant for sequential appends: the chain-continuity
property holds and the `ORDER BY block_number DESC LIMIT 1` read
returns the most recently appended block. -/
def chainInv (c : Crypto) (bs : List ChainBlock) : Prop :=
  chainOk c bs ∧
  ∀ (h : 0 < bs.length), ∀ (h1 : bs.length - 1 < bs.length),
    latestBlock bs = some bs[bs.length - 1]

theorem chainInv_nil (c : Crypto) : chainInv c [] :=
  ⟨fun _ hk => absurd hk (by simp), fun h => absurd h (by simp)⟩

set_option maxHeartbeats 1600000 in
theorem chainInv_append (c : Crypto) (sk : String) (call : List String)
    (bs : List ChainBlock) (hI : chainInv c bs) :
    chainInv c (addToHashChain c sk call bs) := by
  obtain ⟨hok, hlast⟩ := hI
  rw [addToHashChain_eq]
  cases bs with
  | nil =>
    constructor
    · intro k hk
      have hk0 : k = 0 := by
        simp at hk
        omega
      subst hk0
      refine ⟨rfl, ?_, fun _ => rfl, fun h1 _ => absurd h1 (by omega)⟩
      show (mkBlock c sk call (latestBlock [])).current_hash =
        c.sha256hex (c.utf8 (blockData (mkBlock c sk call (latestBlock []))))
      exact mkBlock_recompute c sk call _
    · intro h h1
      rfl
  | cons hd tl =>
    have hpos : 0 < (hd :: tl).length := by simp
    have hsub : (hd :: tl).length - 1 < (hd :: tl).length :=
      Nat.sub_lt hpos Nat.one_pos
    have hlat : latestBlock (hd :: tl) =
        some (hd :: tl)[(hd :: tl).length - 1] := hlast hpos hsub
    rw [hlat]
    have hnum : ((hd :: tl)[(hd :: tl).length - 1]).block_number =
        (hd :: tl).length - 1 := (hok ((hd :: tl).length - 1) hsub).1
    have hget : ∀ (hq : (hd :: tl).length <
        ((hd :: tl) ++
          [mkBlock c sk call (some (hd :: tl)[(hd :: tl).length - 1])]).length),
        ((hd :: tl) ++
          [mkBlock c sk call (some (hd :: tl)[(hd :: tl).length - 1])])[
            (hd :: tl).length] =
          mkBlock c sk call (some (hd :: tl)[(hd :: tl).length - 1]) := by
      intro hq
      rw [List.getElem_append_right (Nat.le_refl _)]
      simp
    constructor
    · intro k hk
      have hklen : k < (hd :: tl).length + 1 := by
        simpa using hk
      by_cases hkb : k < (hd :: tl).length
      · have hgetk : ((hd :: tl) ++
            [mkBlock c sk call (some (hd :: tl)[(hd :: tl).length - 1])])[k] =
            (hd :: tl)[k] := List.getElem_append_left hkb
        obtain ⟨h1, h2, h3, h4⟩ := hok k hkb
        refine ⟨?_, ?_, ?_, ?_⟩
        · rw [hgetk]; exact h1
        · rw [hgetk]; exact h2
        · intro h0; rw [hgetk]; exact h3 h0
        · intro hge hk2
          have hk1b : k - 1 < (hd :: tl).length := by omega
          have hgetk1 : ((hd :: tl) ++
              [mkBlock c sk call (some (hd :: tl)[(hd :: tl).length - 1])])[
                k - 1] = (hd :: tl)[k - 1] := List.getElem_append_left hk1b
          rw [hgetk, hgetk1]
          exact h4 hge hk1b
      · have hkeq : k = (hd :: tl).length := by omega
        subst hkeq
        refine ⟨?_, ?_, ?_, ?_⟩
        · rw [hget hk]
          show ((hd :: tl)[(hd :: tl).length - 1]).block_number + 1 =
            (hd :: tl).length
          omega
        · rw [hget hk]
          exact mkBlock_recompute c sk call _
        · intro h0
          exact absurd h0 (by simp)
        · intro hge hk2
          have hgetk1 : ((hd :: tl) ++
              [mkBlock c sk call (some (hd :: tl)[(hd :: tl).length - 1])])[
                (hd :: tl).length - 1] = (hd :: tl)[(hd :: tl).length - 1] :=
            List.getElem_append_left hsub
          rw [hget hk, hgetk1]
          rfl
    · intro h h1
      show latestAux none ((hd :: tl) ++
        [mkBlock c sk call (some (hd :: tl)[(hd :: tl).length - 1])]) = _
      rw [latestAux_append_single]
      have hlat2 : latestAux none (hd :: tl) =
          some (hd :: tl)[(hd :: tl).length - 1] := hlat
      rw [hlat2]
      show (if ((hd :: tl)[(hd :: tl).length - 1]).block_number ≤
          (mkBlock c sk call
            (some (hd :: tl)[(hd :: tl).length - 1])).block_number then
          some (mkBlock c sk call (some (hd :: tl)[(hd :: tl).length - 1]))
        else some (hd :: tl)[(hd :: tl).length - 1]) = _
      rw [if_pos (show ((hd :: tl)[(hd :: tl).length - 1]).block_number ≤
        (mkBlock c sk call
          (some (hd :: tl)[(hd :: tl).length - 1])).block_number from
        Nat.le_succ _)]
      have hq : ((hd :: tl) ++
          [mkBlock c sk call (some (hd :: tl)[(hd :: tl).length - 1])])[
            ((hd :: tl) ++
              [mkBlock c sk call
                (some (hd :: tl)[(hd :: tl).length - 1])]).length - 1]? =
          some (mkBlock c sk call (some (hd :: tl)[(hd :: tl).length - 1])) := by
        have hidx : ((hd :: tl) ++
            [mkBlock c sk call
              (some (hd :: tl)[(hd :: tl).length - 1])]).length - 1 =
            (hd :: tl).length := by simp
        rw [hidx, List.getElem?_append_right (Nat.le_refl _)]
        simp
      exact ((List.getElem?_eq_getElem h1).symm.trans hq).symm

/-- C1: chain continuity.  For every sequence of sequential
`appendBlock` calls starting from an empty Ledger Store, the stored
blocks satisfy: block 0 has `block_number = 0` and a null
`previous_hash`; block `k` has `block_number = k` and, for `k ≥ 1`,
`previous_hash` equal to block `k-1`'s `current_hash`; and every stored
`current_hash` equals the SHA-256 of the string
`"{block_number}:{previous_hash}:{merkle_root}"` recomputed from that
block's stored fields. -/
theorem chain_continuity (c : Crypto) (sk : String)
    (calls : List (List String)) :
    chainOk c (chainAppendAll c sk calls) := by
  have aux : ∀ (cls : List (List String)) (bs : List ChainBlock),
      chainInv c bs →
      chainInv c
        (List.foldl (fun st cl => addToHashChain c sk cl st) bs cls) := by
    intro cls
    induction cls with
    | nil => intro bs h; exact h
    | cons cl cls ih =>
      intro bs h
      exact ih _ (chainInv_append c sk cl bs h)
  exact (aux calls [] (chainInv_nil c)).1

/-- Closed-input check of `chain_continuity` on two appended blocks. -/
theorem chain_continuity_witness :
    chainOk cEx (chainAppendAll cEx "sk" [["a"], ["b"]]) :=
  chain_continuity cEx "sk" [["a"], ["b"]]
